import Mathlib

/-!
Verification of the timed-presentation engine in `src/app/page.tsx`
(a 30-second scripted canvas/audio animation).  The definitions below are a
shallow embedding of the constants and per-frame / per-run computations of
that file; theorems check the documented properties against them.
-/

/-- Total story duration in milliseconds (`STORY_DURATION` in `page.tsx`). -/
def STORY_DURATION : ℕ := 30000

/-- Narrative phase tag (`type Phase` in `page.tsx`). -/
inductive Phase
  | idle
  | intro
  | hint
  | manifest
  | escalate
  | scare
  | aftermath
deriving DecidableEq, Repr, Fintype

/-- Position of a phase in the fixed narrative order. -/
def phaseIdx : Phase → ℕ
  | .idle => 0
  | .intro => 1
  | .hint => 2
  | .manifest => 3
  | .escalate => 4
  | .scare => 5
  | .aftermath => 6

/-- One `(offset-in-ms, phase)` timeline entry (`PHASE_SEQUENCE` element). -/
structure TimelineEntry where
  offset : ℕ
  phase : Phase
deriving DecidableEq, Repr

/-- The fixed timeline (`PHASE_SEQUENCE` in `page.tsx`). -/
def PHASE_SEQUENCE : List TimelineEntry :=
  [⟨0, .intro⟩, ⟨6800, .hint⟩, ⟨13600, .manifest⟩, ⟨19800, .escalate⟩,
   ⟨24400, .scare⟩, ⟨STORY_DURATION, .aftermath⟩]

/-- Phase visible at elapsed time `t` of a run.  `beginStory` sets the phase
to `intro` immediately and schedules one `setTimeout` per timeline entry with
delay equal to its offset; at elapsed time `t` every timeout with delay ≤ t
has fired, in registration order, and the phase holds the last write. -/
def phaseAt (t : ℕ) : Phase :=
  PHASE_SEQUENCE.foldl (fun cur e => if e.offset ≤ t then e.phase else cur) .intro

/-- Spec-side phase: the phase of the last timeline entry whose offset is ≤ t
(the spec's words: "Phase at time t equals the last timeline entry whose
offset ≤ t"). -/
def phaseSpecAt (t : ℕ) : Phase :=
  match (PHASE_SEQUENCE.filter (fun e => e.offset ≤ t)).getLast? with
  | some e => e.phase
  | none => .intro

theorem phaseAt_closed (t : ℕ) :
    phaseAt t =
      if t < 6800 then .intro
      else if t < 13600 then .hint
      else if t < 19800 then .manifest
      else if t < 24400 then .escalate
      else if t < 30000 then .scare
      else .aftermath := by
  simp only [phaseAt, PHASE_SEQUENCE, STORY_DURATION, List.foldl]
  split_ifs <;> first | rfl | omega

theorem phaseSpecAt_closed (t : ℕ) :
    phaseSpecAt t =
      if t < 6800 then .intro
      else if t < 13600 then .hint
      else if t < 19800 then .manifest
      else if t < 24400 then .escalate
      else if t < 30000 then .scare
      else .aftermath := by
  unfold phaseSpecAt
  rcases lt_or_ge t 6800 with h1 | h1
  · have e1 : ¬ (6800 ≤ t) := by omega
    have e2 : ¬ (13600 ≤ t) := by omega
    have e3 : ¬ (19800 ≤ t) := by omega
    have e4 : ¬ (24400 ≤ t) := by omega
    have e5 : ¬ (30000 ≤ t) := by omega
    simp [PHASE_SEQUENCE, STORY_DURATION, List.filter, e1, e2, e3, e4, e5, h1]
  rcases lt_or_ge t 13600 with h2 | h2
  · have e2 : ¬ (13600 ≤ t) := by omega
    have e3 : ¬ (19800 ≤ t) := by omega
    have e4 : ¬ (24400 ≤ t) := by omega
    have e5 : ¬ (30000 ≤ t) := by omega
    have f1 : ¬ t < 6800 := by omega
    simp [PHASE_SEQUENCE, STORY_DURATION, List.filter, h1, e2, e3, e4, e5, f1, h2]
  rcases lt_or_ge t 19800 with h3 | h3
  · have e3 : ¬ (19800 ≤ t) := by omega
    have e4 : ¬ (24400 ≤ t) := by omega
    have e5 : ¬ (30000 ≤ t) := by omega
    have f1 : ¬ t < 6800 := by omega
    have f2 : ¬ t < 13600 := by omega
    simp [PHASE_SEQUENCE, STORY_DURATION, List.filter, h1, h2, e3, e4, e5, f1, f2, h3]
  rcases lt_or_ge t 24400 with h4 | h4
  · have e4 : ¬ (24400 ≤ t) := by omega
    have e5 : ¬ (30000 ≤ t) := by omega
    have f1 : ¬ t < 6800 := by omega
    have f2 : ¬ t < 13600 := by omega
    have f3 : ¬ t < 19800 := by omega
    simp [PHASE_SEQUENCE, STORY_DURATION, List.filter, h1, h2, h3, e4, e5, f1, f2, f3, h4]
  rcases lt_or_ge t 30000 with h5 | h5
  · have e5 : ¬ (30000 ≤ t) := by omega
    have f1 : ¬ t < 6800 := by omega
    have f2 : ¬ t < 13600 := by omega
    have f3 : ¬ t < 19800 := by omega
    have f4 : ¬ t < 24400 := by omega
    simp [PHASE_SEQUENCE, STORY_DURATION, List.filter, h1, h2, h3, h4, e5, f1, f2, f3, f4, h5]
  · have f1 : ¬ t < 6800 := by omega
    have f2 : ¬ t < 13600 := by omega
    have f3 : ¬ t < 19800 := by omega
    have f4 : ¬ t < 24400 := by omega
    have f5 : ¬ t < 30000 := by omega
    simp [PHASE_SEQUENCE, STORY_DURATION, List.filter, h1, h2, h3, h4, h5, f1, f2, f3, f4, f5]

theorem phaseAt_mono {t t' : ℕ} (h : t ≤ t') :
    phaseIdx (phaseAt t) ≤ phaseIdx (phaseAt t') := by
  rw [phaseAt_closed, phaseAt_closed]
  split_ifs <;> simp only [phaseIdx] <;> omega

theorem phaseIdx_inj : ∀ p q : Phase, phaseIdx p = phaseIdx q → p = q := by decide

/-- C1: the phase at elapsed time t equals the phase of the last timeline entry
whose offset is ≤ t; the scheduled offsets are strictly increasing (so
transitions fire in increasing offset order); the phase index is monotone in
elapsed time; and each phase occupies one contiguous time interval, so no
phase is revisited within a run. -/
theorem C1_phase_timeline :
    (∀ t : ℕ, phaseAt t = phaseSpecAt t)
    ∧ List.Chain' (fun a b => a < b) (PHASE_SEQUENCE.map (fun e => e.offset))
    ∧ (∀ t t' : ℕ, t ≤ t' → phaseIdx (phaseAt t) ≤ phaseIdx (phaseAt t'))
    ∧ (∀ t t' t'' : ℕ, t ≤ t' → t' ≤ t'' → phaseAt t = phaseAt t'' →
        phaseAt t' = phaseAt t) := by
  refine ⟨fun t => by rw [phaseAt_closed, phaseSpecAt_closed], ?_, ?_, ?_⟩
  · norm_num [PHASE_SEQUENCE, STORY_DURATION, List.chain'_cons, List.chain'_singleton]
  · intro t t' h
    exact phaseAt_mono h
  · intro t t' t'' h1 h2 heq
    have a1 := phaseAt_mono h1
    have a2 := phaseAt_mono h2
    rw [← heq] at a2
    exact phaseIdx_inj _ _ (le_antisymm a2 a1)

/-- Witness for C1 at concrete times. -/
theorem C1_phase_timeline_witness :
    phaseAt 7000 = phaseSpecAt 7000
    ∧ phaseIdx (phaseAt 7000) ≤ phaseIdx (phaseAt 24500)
    ∧ phaseAt 8000 = phaseAt 7000 :=
  ⟨C1_phase_timeline.1 7000,
   C1_phase_timeline.2.2.1 7000 24500 (by norm_num),
   C1_phase_timeline.2.2.2 7000 8000 9000 (by norm_num) (by norm_num)
     (by decide)⟩

/-- Published progress fraction at elapsed time `t` ms.  `draw` computes
`clamped = Math.min(elapsed, STORY_DURATION)` and
`progressValue = clamped / STORY_DURATION`. -/
def progressValue (elapsed : ℕ) : ℚ :=
  ((min elapsed STORY_DURATION : ℕ) : ℚ) / (STORY_DURATION : ℚ)

/-- Times at which the throttled publisher fires.  `draw` calls `setProgress`
only when `now - lastProgressUpdate.current > 120`, and then stores `now` into
`lastProgressUpdate`; `last` is the current `lastProgressUpdate` value and the
list holds the frame timestamps in order. -/
def publishTimes : ℕ → List ℕ → List ℕ
  | _, [] => []
  | last, now :: rest =>
      if now - last > 120 then now :: publishTimes now rest
      else publishTimes last rest

theorem publishTimes_chain (frames : List ℕ) (last : ℕ) :
    List.Chain (fun a b => a + 120 < b) last (publishTimes last frames) := by
  induction frames generalizing last with
  | nil => simp [publishTimes]
  | cons now rest ih =>
    unfold publishTimes
    split_ifs with h
    · exact List.Chain.cons (by omega) (ih now)
    · exact ih last

theorem chain_imp_chain {R : ℕ → ℕ → Prop} {a : ℕ} {l : List ℕ}
    (h : List.Chain R a l) : List.Chain' R l := by
  cases h with
  | nil => exact List.chain'_nil
  | cons hr hc => exact hc

/-- C2: the published progress fraction at elapsed time t equals
min(t, 30000) / 30000; it is monotonically non-decreasing in elapsed time;
and any two consecutive publish events of a run are more than 120 ms apart. -/
theorem C2_progress :
    (∀ t : ℕ, progressValue t = ((min t STORY_DURATION : ℕ) : ℚ) / (STORY_DURATION : ℚ))
    ∧ (∀ t t' : ℕ, t ≤ t' → progressValue t ≤ progressValue t')
    ∧ (∀ last frames, List.Chain' (fun a b => a + 120 < b) (publishTimes last frames)) := by
  refine ⟨fun t => rfl, ?_, fun last frames => chain_imp_chain (publishTimes_chain frames last)⟩
  intro t t' h
  unfold progressValue
  have hm : (min t STORY_DURATION : ℕ) ≤ min t' STORY_DURATION :=
    min_le_min h le_rfl
  have hq : ((min t STORY_DURATION : ℕ) : ℚ) ≤ ((min t' STORY_DURATION : ℕ) : ℚ) := by
    exact_mod_cast hm
  have hD : (0 : ℚ) < (STORY_DURATION : ℚ) := by norm_num [STORY_DURATION]
  exact (div_le_div_iff_of_pos_right hD).mpr hq

/-- Witness for C2 at concrete inputs. -/
theorem C2_progress_witness :
    progressValue 15000 = ((min 15000 STORY_DURATION : ℕ) : ℚ) / (STORY_DURATION : ℚ)
    ∧ progressValue 15000 ≤ progressValue 31000
    ∧ List.Chain' (fun a b => a + 120 < b) (publishTimes 0 [50, 200, 250, 400]) :=
  ⟨C2_progress.1 15000, C2_progress.2.1 15000 31000 (by norm_num),
   C2_progress.2.2 0 [50, 200, 250, 400]⟩

/-- Whether the `draw` callback re-queues another animation frame at elapsed
time `t` (the `if (clamped < STORY_DURATION) requestAnimationFrame(draw)`
branch). -/
def drawSchedulesNext (elapsed : ℕ) : Bool :=
  decide (min elapsed STORY_DURATION < STORY_DURATION)

/-- Whether the `draw` callback sets the completion flag at elapsed time `t`
(the `else setIsComplete(true)` branch). -/
def drawSetsComplete (elapsed : ℕ) : Bool :=
  ! drawSchedulesNext elapsed

/-- Elapsed frame times actually drawn in a run, given the candidate frame
times in order: each drawn frame re-queues the next only while the draw
callback scheduled another frame. -/
def framesDrawn : List ℕ → List ℕ
  | [] => []
  | t :: rest => if drawSchedulesNext t then t :: framesDrawn rest else [t]

theorem drawSetsComplete_iff (t : ℕ) :
    drawSetsComplete t = true ↔ STORY_DURATION ≤ t := by
  simp only [drawSetsComplete, drawSchedulesNext, Bool.not_eq_true', decide_eq_false_iff_not]
  omega

theorem framesDrawn_complete_last (ts : List ℕ) (t : ℕ) :
    t ∈ framesDrawn ts → drawSetsComplete t = true →
      (framesDrawn ts).getLast? = some t := by
  induction ts with
  | nil => simp [framesDrawn]
  | cons s rest ih =>
    unfold framesDrawn
    split_ifs with hs
    · intro hmem hc
      rcases List.mem_cons.mp hmem with h | h
      · subst h
        rw [drawSetsComplete_iff] at hc
        simp only [drawSchedulesNext, decide_eq_true_eq] at hs
        omega
      · have := ih h hc
        rw [List.getLast?_cons, this]
        simp
    · intro hmem hc
      simp only [List.mem_singleton] at hmem
      subst hmem
      rfl

theorem framesDrawn_complete_once (ts : List ℕ) :
    ((framesDrawn ts).filter (fun t => drawSetsComplete t)).length ≤ 1 := by
  induction ts with
  | nil => simp [framesDrawn]
  | cons s rest ih =>
    unfold framesDrawn
    split_ifs with hs
    · have hnc : drawSetsComplete s = false := by
        simp only [drawSetsComplete, hs, Bool.not_true]
      simp only [List.filter_cons, hnc]
      exact ih
    · have hc : drawSetsComplete s = true := by
        simp only [drawSetsComplete, Bool.not_eq_true']
        simpa using hs
      simp [List.filter_cons, hc]

theorem framesDrawn_complete_exactly (ts : List ℕ) :
    (∃ t ∈ ts, STORY_DURATION ≤ t) →
      ((framesDrawn ts).filter (fun t => drawSetsComplete t)).length = 1 := by
  induction ts with
  | nil => simp
  | cons s rest ih =>
    intro hex
    unfold framesDrawn
    split_ifs with hs
    · have hnc : drawSetsComplete s = false := by
        simp only [drawSetsComplete, hs, Bool.not_true]
      simp only [List.filter_cons, hnc]
      apply ih
      rcases hex with ⟨t, htmem, ht⟩
      rcases List.mem_cons.mp htmem with h | h
      · subst h
        simp only [drawSchedulesNext, decide_eq_true_eq] at hs
        omega
      · exact ⟨t, h, ht⟩
    · have hc : drawSetsComplete s = true := by
        simp only [drawSetsComplete, Bool.not_eq_true']
        simpa using hs
      simp [List.filter_cons, hc]

/-- C4: the draw callback flags completion exactly when elapsed ≥ 30000 ms
(and otherwise re-queues a frame); along a run whose candidate frame times
ever reach 30000 ms, the completion flag is set exactly once, and the
completing frame is the last frame drawn — no further frames are scheduled
for that run. -/
theorem C4_completion :
    (∀ t : ℕ, drawSetsComplete t = true ↔ STORY_DURATION ≤ t)
    ∧ (∀ t : ℕ, drawSchedulesNext t = true ↔ t < STORY_DURATION)
    ∧ (∀ ts : List ℕ, (∃ t ∈ ts, STORY_DURATION ≤ t) →
        ((framesDrawn ts).filter (fun t => drawSetsComplete t)).length = 1)
    ∧ (∀ ts : List ℕ, ∀ t ∈ framesDrawn ts, drawSetsComplete t = true →
        (framesDrawn ts).getLast? = some t) := by
  refine ⟨drawSetsComplete_iff, ?_, framesDrawn_complete_exactly, framesDrawn_complete_last⟩
  intro t
  simp only [drawSchedulesNext, decide_eq_true_eq]
  omega

/-- Witness for C4 on a concrete frame schedule. -/
theorem C4_completion_witness :
    (drawSetsComplete 30000 = true)
    ∧ ((framesDrawn [0, 16, 29999, 30010, 30026]).filter
        (fun t => drawSetsComplete t)).length = 1
    ∧ (framesDrawn [0, 16, 29999, 30010, 30026]).getLast? = some 30010 :=
  ⟨(C4_completion.1 30000).mpr (by norm_num [STORY_DURATION]),
   C4_completion.2.2.1 [0, 16, 29999, 30010, 30026]
     ⟨30010, by norm_num, by norm_num [STORY_DURATION]⟩,
   C4_completion.2.2.2 [0, 16, 29999, 30010, 30026] 30010 (by decide) (by decide)⟩

/-- A pending `setTimeout` phase transition: owning run, delay (the timeline
offset), target phase. -/
structure TimeoutEntry where
  run : ℕ
  delay : ℕ
  phase : Phase
deriving DecidableEq, Repr

/-- The scheduler-visible state of the component: pending phase timeouts
(`timeoutsRef`), live audio graphs (`audioStateRef`, as the list of runs
owning a constructed-and-not-yet-released graph), and the in-flight animation
frame callback (`animationRef`). -/
structure SessionState where
  pendingTimeouts : List TimeoutEntry
  audioGraphs : List ℕ
  animationFrame : Option ℕ
deriving DecidableEq, Repr

/-- First half of `startAudio`: if `audioStateRef.current` is set, stop it,
close its context and null the ref — every previous graph is released. -/
def stopPreviousAudio (s : SessionState) : SessionState :=
  { s with audioGraphs := [] }

/-- Second half of `startAudio`: build the new graph and store it in
`audioStateRef.current`. -/
def createAudioGraph (run : ℕ) (s : SessionState) : SessionState :=
  { s with audioGraphs := s.audioGraphs ++ [run] }

/-- `startAudio` in `page.tsx`: release the previous graph first, then
construct the new one. -/
def startAudio (run : ℕ) (s : SessionState) : SessionState :=
  createAudioGraph run (stopPreviousAudio s)

/-- `beginStory`'s `timeoutsRef.current.forEach(clearTimeout)` followed by
`timeoutsRef.current = []`. -/
def clearTimeouts (s : SessionState) : SessionState :=
  { s with pendingTimeouts := [] }

/-- `beginStory`'s `PHASE_SEQUENCE.forEach(... setTimeout ...)`: one pending
timeout per timeline entry, owned by the new run. -/
def scheduleTimeouts (run : ℕ) (s : SessionState) : SessionState :=
  { s with pendingTimeouts :=
      s.pendingTimeouts ++ PHASE_SEQUENCE.map (fun e => ⟨run, e.offset, e.phase⟩) }

/-- The `runKey` effect cleanup: `cancelAnimationFrame(animationRef.current)`. -/
def cancelAnimation (s : SessionState) : SessionState :=
  { s with animationFrame := none }

/-- The `runKey` effect body: `animationRef.current = requestAnimationFrame(draw)`
for the new run. -/
def scheduleAnimation (run : ℕ) (s : SessionState) : SessionState :=
  { s with animationFrame := some run }

/-- `beginStory` for run `run`, as the sequence of scheduler-visible steps it
performs in program order: `startAudio` (stop then create), clear all pending
timeouts, schedule the new run's timeouts, and — through the `runKey` effect —
cancel the previous frame callback and request the new one. -/
def beginStory (run : ℕ) (s : SessionState) : SessionState :=
  scheduleAnimation run
    (cancelAnimation (scheduleTimeouts run (clearTimeouts (startAudio run s))))

/-- C3: after `beginStory` for run N+1, every pending phase timeout belongs to
run N+1 (so no phase callback of any earlier run can still fire), the only
in-flight frame callback belongs to run N+1, and exactly the new audio graph
is live; moreover `startAudio` releases the previous graph before building the
new one, so at every intermediate step at most one audio graph exists. -/
theorem C3_run_cancellation :
    (∀ s run, ((beginStory run s).pendingTimeouts.all
        (fun e => e.run == run)) = true)
    ∧ (∀ s run, (beginStory run s).animationFrame = some run)
    ∧ (∀ s run, (beginStory run s).audioGraphs = [run])
    ∧ (∀ s, (stopPreviousAudio s).audioGraphs.length = 0)
    ∧ (∀ s run, (startAudio run s).audioGraphs.length = 1) := by
  refine ⟨?_, fun s run => rfl, fun s run => rfl, fun s => rfl, fun s run => rfl⟩
  intro s run
  simp [beginStory, scheduleAnimation, cancelAnimation, scheduleTimeouts,
    clearTimeouts, startAudio, createAudioGraph, stopPreviousAudio,
    PHASE_SEQUENCE, List.all]

/-- Guard of the glitch-bar block in `draw`:
`phaseName === "manifest" || phaseName === "escalate" || phaseName === "scare"`. -/
def glitchPhase (p : Phase) : Bool :=
  p == .manifest || p == .escalate || p == .scare

/-- `strength` (the per-bar alpha cap) in the glitch-bar block. -/
def glitchStrength (p : Phase) : ℚ :=
  if p = .scare then 0.48 else if p = .escalate then 0.3 else 0.18

/-- `bars` in the glitch-bar block. -/
def glitchBarCount (p : Phase) : ℕ :=
  if p = .scare then 28 else 18

/-- Number of glitch bars actually drawn on a frame in phase `p`. -/
def glitchBarsDrawn (p : Phase) : ℕ :=
  if glitchPhase p then glitchBarCount p else 0

/-- C5: glitch bars are drawn exactly in phases manifest, escalate and scare
(zero bars in idle, intro, hint, aftermath), with 18 bars and alpha cap 0.18
at manifest, 18 bars and alpha cap 0.30 at escalate, and 28 bars and alpha
cap 0.48 at scare. -/
theorem C5_glitch_bars :
    (∀ p : Phase,
      glitchBarsDrawn p ≠ 0 ↔ (p = .manifest ∨ p = .escalate ∨ p = .scare))
    ∧ glitchBarsDrawn .manifest = 18 ∧ glitchStrength .manifest = 0.18
    ∧ glitchBarsDrawn .escalate = 18 ∧ glitchStrength .escalate = 0.3
    ∧ glitchBarsDrawn .scare = 28 ∧ glitchStrength .scare = 0.48
    ∧ glitchBarsDrawn .idle = 0 ∧ glitchBarsDrawn .intro = 0
    ∧ glitchBarsDrawn .hint = 0 ∧ glitchBarsDrawn .aftermath = 0 := by
  refine ⟨by decide, ?_, ?_, ?_, ?_, ?_, ?_, ?_, ?_, ?_, ?_⟩ <;>
    simp [glitchBarsDrawn, glitchBarCount, glitchStrength, glitchPhase]

/-- `shakeFactor` in `draw`: the amplitude of the sinusoidal camera shake
(`xShake = Math.sin(now * 0.012) * shakeFactor`). -/
def shakeFactor (p : Phase) : ℚ :=
  if p = .scare then 12
  else if p = .escalate then 6
  else if p = .manifest then 3.5
  else 1.5

/-- C6 counterexample: in phase "hint" the shake amplitude is 1.5, not 3.5;
the 3.5 step belongs to phase "manifest". -/
theorem C6_shake_counterexample :
    shakeFactor .hint = 1.5 ∧ shakeFactor .hint ≠ 3.5
    ∧ shakeFactor .manifest = 3.5 := by
  refine ⟨?_, ?_, ?_⟩ <;> simp [shakeFactor]
  norm_num

/-- C6 (amended): on every frame the sinusoidal camera-shake amplitude is a
step function of the current phase: 12 at scare, 6 at escalate, 3.5 at
manifest, and 1.5 for every other phase (idle, intro, hint, aftermath). -/
theorem C6_shake_amended :
    shakeFactor .scare = 12 ∧ shakeFactor .escalate = 6
    ∧ shakeFactor .manifest = 3.5
    ∧ shakeFactor .idle = 1.5 ∧ shakeFactor .intro = 1.5
    ∧ shakeFactor .hint = 1.5 ∧ shakeFactor .aftermath = 1.5 := by
  refine ⟨?_, ?_, ?_, ?_, ?_, ?_, ?_⟩ <;> simp [shakeFactor]

/-- `JUMP_CUT_MOMENTS` in `page.tsx`. -/
def JUMP_CUT_MOMENTS : List ℚ := [6200, 12800, 20750, 24400]

/-- `zoomBase = 1.12 + progressValue * 0.45` in `draw`. -/
def zoomBase (progress : ℚ) : ℚ := 1.12 + progress * 0.45

/-- `zoomBoost` in `draw`: the loop over `JUMP_CUT_MOMENTS` that takes
`Math.max` of the boosts of the moments within 220 ms of `clamped`. -/
def zoomBoost (clamped : ℚ) : ℚ :=
  JUMP_CUT_MOMENTS.foldl
    (fun b m =>
      if |clamped - m| < 220
      then max b (0.3 + (1 - |clamped - m| / 220) * 0.35)
      else b) 0

/-- `zoom = zoomBase + zoomBoost` in `draw`. -/
def zoom (clamped progress : ℚ) : ℚ := zoomBase progress + zoomBoost clamped

/-- Spec-side boost contributed by a single jump-cut moment. -/
def boostAt (clamped m : ℚ) : ℚ :=
  if |clamped - m| < 220 then 0.3 + (1 - |clamped - m| / 220) * 0.35 else 0

theorem boostAt_nonneg (c m : ℚ) : 0 ≤ boostAt c m := by
  unfold boostAt
  split_ifs with h
  · linarith [abs_nonneg (c - m)]
  · exact le_refl 0

theorem boostAt_pos_iff (c m : ℚ) : 0 < boostAt c m ↔ |c - m| < 220 := by
  unfold boostAt
  split_ifs with h
  · simp only [h, iff_true]
    linarith [abs_nonneg (c - m)]
  · simp [h]

theorem boost_step (b c m : ℚ) (hb : 0 ≤ b) :
    (if |c - m| < 220 then max b (0.3 + (1 - |c - m| / 220) * 0.35) else b)
      = max b (boostAt c m) := by
  unfold boostAt
  split_ifs with h
  · rfl
  · exact (max_eq_left hb).symm

theorem zoomBoost_eq_max (c : ℚ) :
    zoomBoost c =
      max (max (max (boostAt c 6200) (boostAt c 12800)) (boostAt c 20750))
        (boostAt c 24400) := by
  have h1 := boostAt_nonneg c 6200
  unfold zoomBoost JUMP_CUT_MOMENTS
  simp only [List.foldl]
  rw [boost_step 0 c 6200 le_rfl]
  rw [boost_step (max 0 (boostAt c 6200)) c 12800 (le_max_left 0 _)]
  rw [boost_step (max (max 0 (boostAt c 6200)) (boostAt c 12800)) c 20750
      (le_trans (le_max_left 0 _) (le_max_left _ _))]
  rw [boost_step
      (max (max (max 0 (boostAt c 6200)) (boostAt c 12800)) (boostAt c 20750))
      c 24400
      (le_trans (le_trans (le_max_left 0 _) (le_max_left _ _)) (le_max_left _ _))]
  rw [max_eq_right h1]

/-- C7: on every frame the zoom is the base zoom 1.12 + 0.45·progress plus a
transient boost; the boost is the maximum of the per-moment boosts of the four
jump-cut instants 6200, 12800, 20750, 24400 ms, and is nonzero exactly when
the clamped elapsed time lies strictly within 220 ms of one of them. -/
theorem C7_jump_cut :
    (∀ c p : ℚ, zoom c p = (1.12 + p * 0.45) + zoomBoost c)
    ∧ (∀ c : ℚ, zoomBoost c =
        max (max (max (boostAt c 6200) (boostAt c 12800)) (boostAt c 20750))
          (boostAt c 24400))
    ∧ (∀ c : ℚ, zoomBoost c ≠ 0 ↔ ∃ m ∈ JUMP_CUT_MOMENTS, |c - m| < 220) := by
  refine ⟨fun c p => rfl, zoomBoost_eq_max, ?_⟩
  intro c
  rw [zoomBoost_eq_max]
  constructor
  · intro hne
    have hnn : 0 ≤ max (max (max (boostAt c 6200) (boostAt c 12800))
        (boostAt c 20750)) (boostAt c 24400) :=
      le_trans (boostAt_nonneg c 24400) (le_max_right _ _)
    have hpos := lt_of_le_of_ne hnn (Ne.symm hne)
    rcases lt_max_iff.mp hpos with h | h4
    · rcases lt_max_iff.mp h with h | h3
      · rcases lt_max_iff.mp h with h1 | h2
        · exact ⟨6200, by norm_num [JUMP_CUT_MOMENTS],
            (boostAt_pos_iff c 6200).mp h1⟩
        · exact ⟨12800, by norm_num [JUMP_CUT_MOMENTS],
            (boostAt_pos_iff c 12800).mp h2⟩
      · exact ⟨20750, by norm_num [JUMP_CUT_MOMENTS],
          (boostAt_pos_iff c 20750).mp h3⟩
    · exact ⟨24400, by norm_num [JUMP_CUT_MOMENTS],
        (boostAt_pos_iff c 24400).mp h4⟩
  · rintro ⟨m, hm, hw⟩
    have hm' : m = 6200 ∨ m = 12800 ∨ m = 20750 ∨ m = 24400 := by
      simpa [JUMP_CUT_MOMENTS] using hm
    have key : 0 < max (max (max (boostAt c 6200) (boostAt c 12800))
        (boostAt c 20750)) (boostAt c 24400) := by
      rcases hm' with rfl | rfl | rfl | rfl
      · exact lt_max_iff.mpr (Or.inl (lt_max_iff.mpr (Or.inl (lt_max_iff.mpr
          (Or.inl ((boostAt_pos_iff c 6200).mpr hw))))))
      · exact lt_max_iff.mpr (Or.inl (lt_max_iff.mpr (Or.inl (lt_max_iff.mpr
          (Or.inr ((boostAt_pos_iff c 12800).mpr hw))))))
      · exact lt_max_iff.mpr (Or.inl (lt_max_iff.mpr
          (Or.inr ((boostAt_pos_iff c 20750).mpr hw))))
      · exact lt_max_iff.mpr (Or.inr ((boostAt_pos_iff c 24400).mpr hw))
    exact key.ne'

/-- Ambient gain at `t` seconds into the run.  `startAudio` sets the ambient
gain to 0.0001 at audio-clock time 0 and schedules `linearRampToValueAtTime`
events to 0.05 at 1 s, 0.12 at 10 s, 0.2 at 18 s and 0.32 at 26 s; per the
Web Audio linear-ramp semantics the value interpolates linearly between
consecutive events and holds the final value afterwards. -/
def ambientGain (t : ℚ) : ℚ :=
  if t ≤ 0 then 0.0001
  else if t ≤ 1 then 0.0001 + (0.05 - 0.0001) * ((t - 0) / (1 - 0))
  else if t ≤ 10 then 0.05 + (0.12 - 0.05) * ((t - 1) / (10 - 1))
  else if t ≤ 18 then 0.12 + (0.2 - 0.12) * ((t - 10) / (18 - 10))
  else if t ≤ 26 then 0.2 + (0.32 - 0.2) * ((t - 18) / (26 - 18))
  else 0.32

theorem ambientGain_mono {t t' : ℚ} (h : t ≤ t') :
    ambientGain t ≤ ambientGain t' := by
  unfold ambientGain
  split_ifs <;> linarith

/-- C8: the ambient gain starts at 0.0001 (below 0.001, near zero), ramps
linearly through 0.05 at 1 s, 0.12 at 10 s, 0.2 at 18 s and 0.32 at 26 s, is
monotonically non-decreasing, and is ≥ 0.32 from 26 s onward. -/
theorem C8_ambient_gain :
    ambientGain 0 = 0.0001 ∧ ambientGain 0 < 0.001
    ∧ ambientGain 1 = 0.05 ∧ ambientGain 10 = 0.12
    ∧ ambientGain 18 = 0.2 ∧ ambientGain 26 = 0.32
    ∧ (∀ t t' : ℚ, t ≤ t' → ambientGain t ≤ ambientGain t')
    ∧ (∀ t : ℚ, 26 ≤ t → 0.32 ≤ ambientGain t) := by
  have h26 : ambientGain 26 = 0.32 := by norm_num [ambientGain]
  refine ⟨by norm_num [ambientGain], by norm_num [ambientGain],
    by norm_num [ambientGain], by norm_num [ambientGain],
    by norm_num [ambientGain], h26, fun t t' h => ambientGain_mono h, ?_⟩
  intro t ht
  calc (0.32 : ℚ) = ambientGain 26 := h26.symm
    _ ≤ ambientGain t := ambientGain_mono ht

/-- Witness for C8 at concrete times. -/
theorem C8_ambient_gain_witness :
    ambientGain 5 ≤ ambientGain 7 ∧ (0.32 : ℚ) ≤ ambientGain 27 :=
  ⟨C8_ambient_gain.2.2.2.2.2.2.1 5 7 (by norm_num),
   C8_ambient_gain.2.2.2.2.2.2.2 27 (by norm_num)⟩

/-- Wall-drawing opacity in `draw`:
`ctx.globalAlpha = 0.12 + progressValue * 0.25`. -/
def wallAlpha (progress : ℚ) : ℚ := 0.12 + progress * 0.25

/-- Guard selecting the alarming eye stroke color in `draw`. -/
def eyeAlarmed (p : Phase) : Bool :=
  p == .hint || p == .manifest || p == .escalate || p == .scare

/-- Alpha of the eye accent stroke color: `rgba(211, 43, 55, 0.75)` when the
guard holds, `rgba(211, 43, 55, 0.35)` otherwise. -/
def eyeColorAlpha (p : Phase) : ℚ :=
  if eyeAlarmed p then 0.75 else 0.35

/-- `ctx.lineWidth` of the eye accent strokes in `draw`. -/
def eyeLineWidth (p : Phase) : ℚ := if p = .scare then 7 else 5

/-- `eyeOffset` in `draw` (half-distance between the two eye strokes). -/
def eyeOffset (p : Phase) : ℚ :=
  if p = .scare then 12 else if p = .escalate then 9 else 6

/-- C9 counterexample: at phase "hint" the eye strokes have exactly the same
width and offset as at "idle" — they switch color but do not widen, contrary
to the claim that they widen once the phase reaches "hint". -/
theorem C9_wall_counterexample :
    eyeLineWidth .hint = eyeLineWidth .idle
    ∧ eyeOffset .hint = eyeOffset .idle
    ∧ eyeAlarmed .hint = true := by
  refine ⟨?_, ?_, by decide⟩ <;> simp [eyeLineWidth, eyeOffset]

/-- C9 (amended): the wall drawing's opacity 0.12 + 0.25·progress is strictly
increasing in progress; the eye accent strokes switch to the alarming color
(alpha 0.75 instead of 0.35) exactly once the phase reaches "hint" or later;
they widen only later — offset 9 at escalate and 12 at scare (6 in every
other phase), stroke width 7 at scare (5 otherwise) — and every aspect of the
effect is maximal at "scare". -/
theorem C9_wall_drawing :
    (∀ p q : ℚ, p < q → wallAlpha p < wallAlpha q)
    ∧ (∀ ph : Phase, eyeAlarmed ph = true ↔
        (ph = .hint ∨ ph = .manifest ∨ ph = .escalate ∨ ph = .scare))
    ∧ eyeColorAlpha .hint = 0.75 ∧ eyeColorAlpha .intro = 0.35
    ∧ eyeOffset .escalate = 9 ∧ eyeOffset .scare = 12
    ∧ eyeOffset .hint = 6 ∧ eyeOffset .manifest = 6
    ∧ eyeLineWidth .scare = 7 ∧ eyeLineWidth .escalate = 5
    ∧ (∀ ph : Phase, eyeOffset ph ≤ eyeOffset .scare
        ∧ eyeLineWidth ph ≤ eyeLineWidth .scare
        ∧ eyeColorAlpha ph ≤ eyeColorAlpha .scare) := by
  refine ⟨?_, by decide, ?_, ?_, ?_, ?_, ?_, ?_, ?_, ?_, ?_⟩
  · intro p q h
    unfold wallAlpha
    nlinarith
  all_goals first
  | (intro ph; cases ph <;>
      simp [eyeOffset, eyeLineWidth, eyeColorAlpha, eyeAlarmed] <;> norm_num)
  | simp [eyeOffset, eyeLineWidth, eyeColorAlpha, eyeAlarmed]

/-- Witness for C9 (amended) at concrete inputs. -/
theorem C9_wall_drawing_witness :
    wallAlpha 0 < wallAlpha 1 ∧ eyeOffset .intro ≤ eyeOffset .scare :=
  ⟨C9_wall_drawing.1 0 1 (by norm_num),
   (C9_wall_drawing.2.2.2.2.2.2.2.2.2.2 .intro).1⟩

/-- One glitch bar as constructed in the loop body of `draw`, from the current
phase, the canvas size and the five `Math.random()` samples drawn in source
order (`alpha`, `barWidth`, `barHeight`, `barX`, `barY`). -/
structure GlitchBar where
  alpha : ℚ
  barWidth : ℚ
  barHeight : ℚ
  barX : ℚ
  barY : ℚ
deriving Repr

/-- `mkGlitchBar p width height r1 r2 r3 r4 r5` is the bar built by one loop
iteration: `alpha = r1 * strength`, `barWidth = r2 * width * 0.12`,
`barHeight = 3 + r3 * 3`, `barX = r4 * (width - barWidth)`,
`barY = r5 * height`, where each `rᵢ ∈ [0, 1)` is a `Math.random()` sample. -/
def mkGlitchBar (p : Phase) (width height r1 r2 r3 r4 r5 : ℚ) : GlitchBar :=
  { alpha := r1 * glitchStrength p
    barWidth := r2 * width * 0.12
    barHeight := 3 + r3 * 3
    barX := r4 * (width - r2 * width * 0.12)
    barY := r5 * height }

theorem glitchStrength_pos (p : Phase) : 0 < glitchStrength p := by
  unfold glitchStrength
  split_ifs <;> norm_num

/-- C10: every glitch bar lies horizontally within the canvas — its x position
is ≥ 0 and x plus width is ≤ the canvas width — and its fill alpha is strictly
below the alpha cap of the current phase. -/
theorem C10_glitch_bar_bounds
    (p : Phase) (width height r1 r2 r3 r4 r5 : ℚ)
    (hw : 0 ≤ width)
    (h1 : 0 ≤ r1) (h1' : r1 < 1)
    (h2 : 0 ≤ r2) (h2' : r2 < 1)
    (h4 : 0 ≤ r4) (h4' : r4 < 1) :
    0 ≤ (mkGlitchBar p width height r1 r2 r3 r4 r5).barX
    ∧ (mkGlitchBar p width height r1 r2 r3 r4 r5).barX
        + (mkGlitchBar p width height r1 r2 r3 r4 r5).barWidth ≤ width
    ∧ (mkGlitchBar p width height r1 r2 r3 r4 r5).alpha < glitchStrength p := by
  have hs := glitchStrength_pos p
  have hbw : 0 ≤ r2 * width * 0.12 := by positivity
  have hbw' : r2 * width * 0.12 ≤ width := by nlinarith
  refine ⟨?_, ?_, ?_⟩
  · simp only [mkGlitchBar]
    exact mul_nonneg h4 (by linarith)
  · simp only [mkGlitchBar]
    have hstep : r4 * (width - r2 * width * 0.12) ≤ 1 * (width - r2 * width * 0.12) :=
      mul_le_mul_of_nonneg_right (le_of_lt h4') (by linarith)
    linarith
  · simp only [mkGlitchBar]
    have hstep : r1 * glitchStrength p < 1 * glitchStrength p :=
      mul_lt_mul_of_pos_right h1' hs
    linarith

/-- Witness for C10 on a concrete bar. -/
theorem C10_glitch_bar_bounds_witness :
    0 ≤ (mkGlitchBar .scare 360 640 (1/2) (1/2) (1/2) (1/2) (1/2)).barX
    ∧ (mkGlitchBar .scare 360 640 (1/2) (1/2) (1/2) (1/2) (1/2)).barX
        + (mkGlitchBar .scare 360 640 (1/2) (1/2) (1/2) (1/2) (1/2)).barWidth ≤ 360
    ∧ (mkGlitchBar .scare 360 640 (1/2) (1/2) (1/2) (1/2) (1/2)).alpha
        < glitchStrength .scare :=
  C10_glitch_bar_bounds .scare 360 640 (1/2) (1/2) (1/2) (1/2) (1/2)
    (by norm_num) (by norm_num) (by norm_num) (by norm_num) (by norm_num)
    (by norm_num) (by norm_num)
